import Mathlib

/-!
Shallow embedding of `src/libaddb/addb-smap-remove.c` from the graphd
repository: the functions `addb_smap_remove` (lines 40-93) and
`addb_smap_truncate` (lines 95-134).

Modelling choices:
* Paths are `List Char` (C strings).
* Error codes are `Nat`; `0` means success, a nonzero value is an errno-style
  code (POSIX guarantees a nonzero errno on failure).
* The external collaborators (allocator, filesystem `unlink`/`rmdir`, the
  largefile service, the tiled-descriptor backup toggle, `addb_smap_close`)
  are modelled as outcome oracles: an environment record supplies the error
  code each call would produce.  The log sink is fire-and-forget, so a log
  call is recorded only as an event.
* Each function returns the error code paired with the ordered list of
  observable operations (events) it performed, so that ordering and
  which-steps-ran claims can be stated.
-/

/-- Errno value for a missing file; the source compares `errno` against
`ENOENT` after a failed `unlink` (line 69). -/
def ENOENT : Nat := 2

/-- Observable operations issued by the code, in program order. -/
inductive Event where
  | alloc
  | free
  | unlink (p : List Char)
  | largefileRemove (p : List Char)
  | rmdir (p : List Char)
  | disableBackup (i : Nat)
  | close
  | log
  deriving DecidableEq, Repr

/-- Event classifier: the filesystem-deletion operations (partition `unlink`,
largefile removal, directory `rmdir`). -/
def Event.isDeletion : Event → Bool
  | .unlink _ => true
  | .largefileRemove _ => true
  | .rmdir _ => true
  | _ => false

/-- Event classifier: a backup-disable call on a tiled descriptor. -/
def Event.isDisable : Event → Bool
  | .disableBackup _ => true
  | _ => false

/-- Outcome oracle for the external calls made by `addb_smap_remove`:
whether the scratch-buffer allocation succeeds (and the errno when it does
not), and the error code produced by `unlink`, by `addb_largefile_remove`
and by `rmdir` on a given path (`0` = the call succeeds). -/
structure RemoveEnv where
  allocOk : Bool
  allocErrno : Nat
  unlinkErr : List Char → Nat
  largefileErr : List Char → Nat
  rmdirErr : List Char → Nat

/-- Log record emitted exactly when an error code is nonzero (shorthand for
the `if (err) cl_log_errno(...)` pattern of the source). -/
def logIf (k : Nat) : List Event :=
  if k = 0 then [] else [Event.log]

/-- Modelled from the spec: `addb_smap_partition_basename` is declared in the
repository's headers, which are not part of `src/`.  Per spec 4.1 it writes a
distinct, stable, bounded-length basename for partition index `i` into the
caller's buffer; the concrete format is unspecified, so any injective,
separator-free naming is a faithful model. -/
def addb_smap_partition_basename (i : Nat) : List Char :=
  's' :: 'm' :: 'a' :: 'p' :: '.' :: Nat.toDigits 10 i

/-- Partition path as assembled by `addb_smap_remove` lines 57-66: the
directory is copied into the scratch buffer; a `'/'` is appended only when
the copied directory is nonempty and its last character is not already
`'/'`; the basename for index `i` is then written after it. -/
def partitionPath (path : List Char) (i : Nat) : List Char :=
  if path ≠ [] ∧ path.getLast? ≠ some '/' then
    path ++ '/' :: addb_smap_partition_basename i
  else
    path ++ addb_smap_partition_basename i

/-- The partition loop of `addb_smap_remove` (lines 64-77), over an explicit
index list and the current value of `err`: each candidate partition path is
unlinked; on `ENOENT` the recorded error is reset to `0`; on any other
failure the error is recorded and logged; the loop always advances to the
next index. -/
def unlinkPass (env : RemoveEnv) (path : List Char) :
    List Nat → Nat → Nat × List Event
  | [], err => (err, [])
  | i :: rest, err =>
    let p := partitionPath path i
    let u := env.unlinkErr p
    if u = 0 then
      let r := unlinkPass env path rest err
      (r.1, Event.unlink p :: r.2)
    else if u = ENOENT then
      let r := unlinkPass env path rest 0
      (r.1, Event.unlink p :: r.2)
    else
      let r := unlinkPass env path rest u
      (r.1, Event.unlink p :: Event.log :: r.2)

/-- Events contributed to the trace by one iteration of the partition loop:
the `unlink` attempt itself, followed by a log record exactly when the
unlink failed with something other than `ENOENT`. -/
def unlinkStep (env : RemoveEnv) (path : List Char) (i : Nat) : List Event :=
  let u := env.unlinkErr (partitionPath path i)
  Event.unlink (partitionPath path i) ::
    (if u = 0 ∨ u = ENOENT then [] else [Event.log])

/-- Shallow embedding of `addb_smap_remove` (lines 40-93).  `pmax` is the
static maximum `ADDB_GMAP_PARTITIONS_MAX` (its numeric value lives in a
header outside `src/`; every statement below holds for any value).  If the
scratch allocation fails the errno is logged and returned at once.
Otherwise the partition loop runs, its recorded error is then overwritten by
the result of `addb_largefile_remove` (line 81), a failing largefile removal
is logged, `rmdir` is attempted, and a failing `rmdir` contributes its errno
only when `err` is still zero (line 87) and is logged. -/
def addb_smap_remove (env : RemoveEnv) (pmax : Nat) (path : List Char) :
    Nat × List Event :=
  if env.allocOk then
    let loop := unlinkPass env path (List.range pmax) 0
    let lf := env.largefileErr path
    let r := env.rmdirErr path
    (if lf ≠ 0 then lf else r,
      Event.alloc :: loop.2 ++ Event.free :: Event.largefileRemove path ::
        (logIf lf ++ Event.rmdir path :: logIf r))
  else
    (env.allocErrno, [Event.alloc, Event.log])

/-- One partition slot of an open smap: `part_td` records whether a tiled
descriptor is attached (a non-null `part->part_td` in the source). -/
structure Partition where
  part_td : Bool
  deriving DecidableEq, Repr

/-- The open smap structure: its live partition slots in index order (the
`sm_partition` array; `sm_partition_n` is the list length). -/
structure Smap where
  sm_partition : List Partition
  deriving DecidableEq, Repr

/-- Outcome oracle for the external calls made by `addb_smap_truncate`: the
error code `addb_tiled_backup` would produce for the partition at index `i`,
the error code of `addb_smap_close`, and the oracle threaded through to
`addb_smap_remove`. -/
structure TruncateEnv where
  backupErr : Nat → Nat
  closeErr : Nat
  removeEnv : RemoveEnv

/-- The backup-disable loop of `addb_smap_truncate` (lines 104-114), over
the indexed partition slots it visits and the current value of `err`: a slot
without a descriptor is skipped; otherwise `addb_tiled_backup(td, false)` is
invoked, and a failure is logged and recorded only when `err` is still zero;
the loop always advances. -/
def backupPass (env : TruncateEnv) :
    List (Nat × Partition) → Nat → Nat × List Event
  | [], err => (err, [])
  | (i, part) :: rest, err =>
    if part.part_td then
      let e := env.backupErr i
      if e = 0 then
        let r := backupPass env rest err
        (r.1, Event.disableBackup i :: r.2)
      else
        let r := backupPass env rest (if err = 0 then e else err)
        (r.1, Event.disableBackup i :: Event.log :: r.2)
    else
      backupPass env rest err

/-- Events contributed by one visited slot of the backup-disable loop: for a
slot with a descriptor, the disable call followed by a log record exactly on
failure; nothing for a slot without one. -/
def backupStep (env : TruncateEnv) (ip : Nat × Partition) : List Event :=
  if ip.2.part_td then
    Event.disableBackup ip.1 :: logIf (env.backupErr ip.1)
  else []

/-- Shallow embedding of `addb_smap_truncate` (lines 95-134).  A null `sm`
returns `0` immediately with no operation.  Otherwise the backup-disable
loop walks `sm_partition` up to (excluding) `sm_partition + sm_partition_n
- 1`, i.e. every slot but the last (`List.dropLast`, paired with its index);
then `addb_smap_close` runs, then `addb_smap_remove`; each later error is
logged and recorded only when `err` is still zero. -/
def addb_smap_truncate (env : TruncateEnv) (pmax : Nat) (sm : Option Smap)
    (path : List Char) : Nat × List Event :=
  match sm with
  | none => (0, [])
  | some sm =>
    let b := backupPass env sm.sm_partition.dropLast.enum 0
    let c := env.closeErr
    let err2 := if c ≠ 0 ∧ b.1 = 0 then c else b.1
    let rem := addb_smap_remove env.removeEnv pmax path
    let err3 := if rem.1 ≠ 0 ∧ err2 = 0 then rem.1 else err2
    (err3,
      b.2 ++ Event.close :: (logIf c ++ rem.2 ++ logIf rem.1))

/-- Concrete oracle: the allocation succeeds, every partition `unlink` fails
with error 13 (permission denied), and the largefile removal and the
`rmdir` both succeed. -/
def envPartFail : RemoveEnv :=
  { allocOk := true, allocErrno := 12, unlinkErr := fun _ => 13,
    largefileErr := fun _ => 0, rmdirErr := fun _ => 0 }

/-- Concrete oracle: the scratch allocation fails with errno 12 (out of
memory); every other call would succeed. -/
def envAllocFail : RemoveEnv :=
  { allocOk := false, allocErrno := 12, unlinkErr := fun _ => 0,
    largefileErr := fun _ => 0, rmdirErr := fun _ => 0 }

/-- Concrete oracle for a structure that has already been fully removed:
the allocation succeeds, every `unlink` fails with `ENOENT`, the largefile
removal reports success (missing largefiles are success per its contract),
and `rmdir` fails with `ENOENT` because the directory itself is gone. -/
def envAllAbsent : RemoveEnv :=
  { allocOk := true, allocErrno := 12, unlinkErr := fun _ => ENOENT,
    largefileErr := fun _ => 0, rmdirErr := fun _ => ENOENT }

/-- Concrete oracle: every call succeeds. -/
def envNoFail : RemoveEnv :=
  { allocOk := true, allocErrno := 12, unlinkErr := fun _ => 0,
    largefileErr := fun _ => 0, rmdirErr := fun _ => 0 }

/-- Membership in a conditional log record. -/
theorem mem_logIf {e : Event} {k : Nat} : e ∈ logIf k ↔ k ≠ 0 ∧ e = Event.log := by
  unfold logIf
  split <;> simp_all

/-- The trace of the partition loop is one `unlinkStep` block per index, in
order, independently of the incoming value of `err`. -/
theorem unlinkPass_trace (env : RemoveEnv) (path : List Char) :
    ∀ (idxs : List Nat) (err : Nat),
      (unlinkPass env path idxs err).2 = idxs.flatMap (unlinkStep env path)
  | [], _ => rfl
  | i :: rest, err => by
    simp only [unlinkPass, unlinkStep, List.flatMap_cons]
    by_cases h0 : env.unlinkErr (partitionPath path i) = 0
    · simp [h0, unlinkPass_trace env path rest err]
    · by_cases hn : env.unlinkErr (partitionPath path i) = ENOENT
      · simp [h0, hn, ENOENT, unlinkPass_trace env path rest 0]
      · simp [h0, hn, unlinkPass_trace env path rest
          (env.unlinkErr (partitionPath path i))]

/-- A backup-disable event never occurs in an `unlinkStep` block. -/
theorem disableBackup_not_mem_unlinkStep (env : RemoveEnv) (path : List Char)
    (i j : Nat) : Event.disableBackup i ∉ unlinkStep env path j := by
  simp only [unlinkStep]
  split <;> simp

/-- When the scratch allocation succeeds, the return value of
`addb_smap_remove` is the largefile-removal error when that is nonzero and
the `rmdir` error otherwise. -/
theorem addb_smap_remove_err (env : RemoveEnv) (pmax : Nat)
    (path : List Char) (h : env.allocOk = true) :
    (addb_smap_remove env pmax path).1 =
      if env.largefileErr path ≠ 0 then env.largefileErr path
      else env.rmdirErr path := by
  simp [addb_smap_remove, h]

/-- When the scratch allocation succeeds, the trace of `addb_smap_remove`
is: the allocation, the partition loop's blocks, the free, the largefile
removal (with a log on failure), and the `rmdir` (with a log on failure). -/
theorem addb_smap_remove_trace (env : RemoveEnv) (pmax : Nat)
    (path : List Char) (h : env.allocOk = true) :
    (addb_smap_remove env pmax path).2 =
      Event.alloc :: (List.range pmax).flatMap (unlinkStep env path) ++
        Event.free :: Event.largefileRemove path ::
          (logIf (env.largefileErr path) ++
            Event.rmdir path :: logIf (env.rmdirErr path)) := by
  simp [addb_smap_remove, h, unlinkPass_trace]

/-- A backup-disable event never occurs in the trace of
`addb_smap_remove`. -/
theorem addb_smap_remove_not_disable (env : RemoveEnv) (pmax : Nat)
    (path : List Char) (i : Nat) :
    Event.disableBackup i ∉ (addb_smap_remove env pmax path).2 := by
  by_cases h : env.allocOk = true
  · rw [addb_smap_remove_trace env pmax path h]
    simp [mem_logIf, disableBackup_not_mem_unlinkStep]
  · simp only [Bool.not_eq_true] at h
    simp [addb_smap_remove, h]

/-- The trace of the backup-disable loop is one `backupStep` block per
visited slot, in order, independently of the incoming value of `err`. -/
theorem backupPass_trace (env : TruncateEnv) :
    ∀ (l : List (Nat × Partition)) (err : Nat),
      (backupPass env l err).2 = l.flatMap (backupStep env)
  | [], _ => rfl
  | (i, part) :: rest, err => by
    simp only [backupPass, backupStep, List.flatMap_cons]
    by_cases ht : part.part_td = true
    · by_cases hz : env.backupErr i = 0
      · simp [ht, hz, logIf, backupPass_trace env rest err]
      · simp [ht, hz, logIf, backupPass_trace env rest (if err = 0 then env.backupErr i else err)]
    · simp only [Bool.not_eq_true] at ht
      simp [ht, backupPass_trace env rest err]

/-- Every event of a `backupStep` block is a disable call or a log record. -/
theorem backupStep_events (env : TruncateEnv) (ip : Nat × Partition) :
    ∀ e ∈ backupStep env ip, e.isDisable = true ∨ e = Event.log := by
  intro e he
  simp only [backupStep] at he
  rcases instDecidableEqBool ip.2.part_td true with h | h
  · simp [h] at he
  · simp only [h, if_true] at he
    rcases List.mem_cons.mp he with rfl | he
    · exact Or.inl rfl
    · exact Or.inr (mem_logIf.mp he).2

/-- A disable event occurs in a `backupStep` block exactly for the block of
its own index when that slot carries a descriptor. -/
theorem disableBackup_mem_backupStep (env : TruncateEnv) (ip : Nat × Partition)
    (i : Nat) :
    Event.disableBackup i ∈ backupStep env ip ↔
      i = ip.1 ∧ ip.2.part_td = true := by
  simp only [backupStep]
  by_cases ht : ip.2.part_td = true
  · simp [ht, mem_logIf]
  · simp [ht]

/-- Trace of `addb_smap_truncate` on a non-null smap: the backup-disable
blocks, the close (with a log on failure), then the whole removal trace
(with a log when the removal returned an error). -/
theorem addb_smap_truncate_trace (env : TruncateEnv) (pmax : Nat) (sm : Smap)
    (path : List Char) :
    (addb_smap_truncate env pmax (some sm) path).2 =
      (sm.sm_partition.dropLast.enum).flatMap (backupStep env) ++
        Event.close :: (logIf env.closeErr ++
          (addb_smap_remove env.removeEnv pmax path).2 ++
          logIf (addb_smap_remove env.removeEnv pmax path).1) := by
  simp [addb_smap_truncate, backupPass_trace]

/-- Return value of `addb_smap_truncate` on a non-null smap: the first
nonzero code among the backup-disable pass, the close and the removal. -/
theorem addb_smap_truncate_err (env : TruncateEnv) (pmax : Nat) (sm : Smap)
    (path : List Char) :
    (addb_smap_truncate env pmax (some sm) path).1 =
      if (backupPass env sm.sm_partition.dropLast.enum 0).1 ≠ 0 then
        (backupPass env sm.sm_partition.dropLast.enum 0).1
      else if env.closeErr ≠ 0 then env.closeErr
      else (addb_smap_remove env.removeEnv pmax path).1 := by
  simp only [addb_smap_truncate]
  by_cases hb : (backupPass env sm.sm_partition.dropLast.enum 0).1 = 0 <;>
    by_cases hc : env.closeErr = 0 <;>
      by_cases hr : (addb_smap_remove env.removeEnv pmax path).1 = 0 <;>
        simp [hb, hc, hr]

/-- A digit character produced by `Nat.digitChar` is never a path
separator. -/
theorem digitChar_ne_slash (n : Nat) : Nat.digitChar n ≠ '/' := by
  by_cases h : n < 16
  · interval_cases n <;> decide
  · unfold Nat.digitChar
    rw [if_neg (by omega : ¬ n = 0), if_neg (by omega : ¬ n = 1),
      if_neg (by omega : ¬ n = 2), if_neg (by omega : ¬ n = 3),
      if_neg (by omega : ¬ n = 4), if_neg (by omega : ¬ n = 5),
      if_neg (by omega : ¬ n = 6), if_neg (by omega : ¬ n = 7),
      if_neg (by omega : ¬ n = 8), if_neg (by omega : ¬ n = 9),
      if_neg (by omega : ¬ n = 10), if_neg (by omega : ¬ n = 11),
      if_neg (by omega : ¬ n = 12), if_neg (by omega : ¬ n = 13),
      if_neg (by omega : ¬ n = 14), if_neg (by omega : ¬ n = 15)]
    decide

/-- No character produced by `Nat.toDigitsCore` is a path separator,
provided the accumulator holds none. -/
theorem toDigitsCore_ne_slash (b : Nat) :
    ∀ (fuel n : Nat) (acc : List Char), (∀ c ∈ acc, c ≠ '/') →
      ∀ c ∈ Nat.toDigitsCore b fuel n acc, c ≠ '/'
  | 0, _, acc, hacc => by
    intro c hc
    exact hacc c hc
  | fuel + 1, n, acc, hacc => by
    have hcons : ∀ c ∈ Nat.digitChar (n % b) :: acc, c ≠ '/' := by
      intro c hc
      rcases List.mem_cons.mp hc with rfl | hc
      · exact digitChar_ne_slash _
      · exact hacc c hc
    intro c hc
    simp only [Nat.toDigitsCore] at hc
    revert hc
    split
    · intro hc
      exact hcons c hc
    · intro hc
      exact toDigitsCore_ne_slash b fuel (n / b) _ hcons c hc

/-- The modelled partition basename never contains a path separator. -/
theorem basename_no_slash (i : Nat) : '/' ∉ addb_smap_partition_basename i := by
  intro hmem
  simp only [addb_smap_partition_basename, List.mem_cons] at hmem
  rcases hmem with h | h | h | h | h | h
  · exact absurd h (by decide)
  · exact absurd h (by decide)
  · exact absurd h (by decide)
  · exact absurd h (by decide)
  · exact absurd h (by decide)
  · exact toDigitsCore_ne_slash 10 (i + 1) i [] (by simp) '/' h rfl

/-- C1, counterexample: with every partition unlink failing with error 13
(permission denied) while the largefile removal and the `rmdir` succeed,
the first failing step is the partition removal, yet `addb_smap_remove`
returns 0, not 13 — the partition-loop error is discarded when line 81
overwrites `err` with the largefile result. -/
theorem claim_C1_counterexample :
    envPartFail.unlinkErr (partitionPath ['d'] 0) = 13 ∧
    envPartFail.largefileErr ['d'] = 0 ∧
    envPartFail.rmdirErr ['d'] = 0 ∧
    (addb_smap_remove envPartFail 3 ['d']).1 = 0 := by
  decide

/-- C1, amended: when the scratch allocation succeeds, `addb_smap_remove`
returns the error code of the first of the two later steps that failed —
the largefile removal, then the directory removal — and an error of the
later of those two is logged but not returned; partition-removal errors
are logged but never returned; on total success it returns 0. -/
theorem claim_C1 (env : RemoveEnv) (pmax : Nat) (path : List Char)
    (h : env.allocOk = true) :
    (addb_smap_remove env pmax path).1 =
      if env.largefileErr path ≠ 0 then env.largefileErr path
      else env.rmdirErr path :=
  addb_smap_remove_err env pmax path h

/-- C1, witness: the amended statement evaluated on the concrete oracle in
which every partition unlink fails. -/
theorem claim_C1_witness :
    (addb_smap_remove envPartFail 3 ['d']).1 =
      if envPartFail.largefileErr ['d'] ≠ 0 then envPartFail.largefileErr ['d']
      else envPartFail.rmdirErr ['d'] :=
  claim_C1 envPartFail 3 ['d'] rfl

/-- C2, counterexample: when the scratch allocation fails,
`addb_smap_remove` returns the allocation errno at once and attempts none
of the three steps — no unlink, no largefile removal, no `rmdir` appears in
its trace — so an error can make the function return before the steps have
been attempted. -/
theorem claim_C2_counterexample :
    (addb_smap_remove envAllocFail 3 ['d']).1 = 12 ∧
    ((addb_smap_remove envAllocFail 3 ['d']).2.all
      fun e => ! e.isDeletion) = true := by
  decide

/-- C2, amended: whenever the scratch allocation succeeds,
`addb_smap_remove` executes all three steps — every partition unlink up to
the static maximum, the largefile removal, and the directory removal — even
when earlier steps fail; only an allocation failure returns early. -/
theorem claim_C2 (env : RemoveEnv) (pmax : Nat) (path : List Char)
    (h : env.allocOk = true) :
    (∀ i, i < pmax →
      Event.unlink (partitionPath path i) ∈ (addb_smap_remove env pmax path).2) ∧
    Event.largefileRemove path ∈ (addb_smap_remove env pmax path).2 ∧
    Event.rmdir path ∈ (addb_smap_remove env pmax path).2 := by
  rw [addb_smap_remove_trace env pmax path h]
  refine ⟨fun i hi => ?_, by simp, by simp⟩
  have hstep : Event.unlink (partitionPath path i) ∈
      (List.range pmax).flatMap (unlinkStep env path) :=
    List.mem_flatMap.mpr
      ⟨i, List.mem_range.mpr hi, by simp [unlinkStep]⟩
  exact List.mem_cons.mpr (Or.inr (List.mem_append.mpr (Or.inl hstep)))

/-- C2, witness: the amended statement evaluated on the concrete oracle in
which every partition unlink fails, with two partition slots: both unlinks,
the largefile removal and the `rmdir` are still attempted. -/
theorem claim_C2_witness :
    Event.unlink (partitionPath ['d'] 1) ∈ (addb_smap_remove envPartFail 2 ['d']).2 ∧
    Event.largefileRemove ['d'] ∈ (addb_smap_remove envPartFail 2 ['d']).2 ∧
    Event.rmdir ['d'] ∈ (addb_smap_remove envPartFail 2 ['d']).2 :=
  ⟨(claim_C2 envPartFail 2 ['d'] rfl).1 1 (by decide),
    (claim_C2 envPartFail 2 ['d'] rfl).2.1,
    (claim_C2 envPartFail 2 ['d'] rfl).2.2⟩

/-- C3, counterexample: on a structure whose partition files, largefiles
and directory are all already absent (every unlink yields `ENOENT`, the
largefile removal reports success, `rmdir` yields `ENOENT`),
`addb_smap_remove` returns `ENOENT`, not 0 — the directory-level not-found
from `rmdir` is not suppressed (line 87). -/
theorem claim_C3_counterexample :
    (addb_smap_remove envAllAbsent 3 ['d']).1 = ENOENT ∧ ENOENT ≠ 0 := by
  decide

/-- C3, amended: when the scratch allocation succeeds, every partition
unlink reports `ENOENT` and the largefile removal reports success, the
value returned by `addb_smap_remove` is exactly the `rmdir` result: 0 when
the emptied directory itself still exists, and the `rmdir` error (`ENOENT`)
when the directory is already gone — per-file not-found is suppressed for
partitions and largefiles but not for the directory itself. -/
theorem claim_C3 (env : RemoveEnv) (pmax : Nat) (path : List Char)
    (h : env.allocOk = true)
    (_hu : ∀ i, env.unlinkErr (partitionPath path i) = ENOENT)
    (hlf : env.largefileErr path = 0) :
    (addb_smap_remove env pmax path).1 = env.rmdirErr path := by
  rw [addb_smap_remove_err env pmax path h, hlf]
  simp

/-- C3, witness: the amended statement evaluated on the concrete
already-fully-removed oracle. -/
theorem claim_C3_witness :
    (addb_smap_remove envAllAbsent 2 ['d']).1 = envAllAbsent.rmdirErr ['d'] :=
  claim_C3 envAllAbsent 2 ['d'] rfl (fun _ => rfl) rfl

/-- C4: when the loop runs (the allocation succeeded), the partition loop
of `addb_smap_remove` attempts an unlink at every index below the static
maximum; an unlink that fails with `ENOENT` leaves the iteration with a
zero recorded error and no log; an unlink that fails with any other code
leaves that code recorded and a log record; and the loop's whole trace is
one block per index in order — no failure stops it from proceeding. -/
theorem claim_C4 (env : RemoveEnv) (pmax : Nat) (path : List Char)
    (h : env.allocOk = true) :
    (∀ i, i < pmax →
      Event.unlink (partitionPath path i) ∈ (addb_smap_remove env pmax path).2) ∧
    (∀ idxs err, (unlinkPass env path idxs err).2 =
      idxs.flatMap (unlinkStep env path)) ∧
    (∀ i err, env.unlinkErr (partitionPath path i) = ENOENT →
      unlinkPass env path [i] err = (0, [Event.unlink (partitionPath path i)])) ∧
    (∀ i err, env.unlinkErr (partitionPath path i) ≠ 0 →
      env.unlinkErr (partitionPath path i) ≠ ENOENT →
      unlinkPass env path [i] err =
        (env.unlinkErr (partitionPath path i),
          [Event.unlink (partitionPath path i), Event.log])) := by
  refine ⟨fun i hi => ?_, unlinkPass_trace env path, fun i err hi => ?_, fun i err h0 hn => ?_⟩
  · rw [addb_smap_remove_trace env pmax path h]
    have hstep : Event.unlink (partitionPath path i) ∈
        (List.range pmax).flatMap (unlinkStep env path) :=
      List.mem_flatMap.mpr
        ⟨i, List.mem_range.mpr hi, by simp [unlinkStep]⟩
    exact List.mem_cons.mpr (Or.inr (List.mem_append.mpr (Or.inl hstep)))
  · simp [unlinkPass, hi, ENOENT]
  · simp [unlinkPass, h0, hn]

/-- C4, witness: the statement evaluated on the concrete oracle in which
every unlink fails with error 13. -/
theorem claim_C4_witness :
    Event.unlink (partitionPath ['d'] 0) ∈ (addb_smap_remove envPartFail 2 ['d']).2 ∧
    unlinkPass envPartFail ['d'] [0] 0 =
      (envPartFail.unlinkErr (partitionPath ['d'] 0),
        [Event.unlink (partitionPath ['d'] 0), Event.log]) :=
  ⟨(claim_C4 envPartFail 2 ['d'] rfl).1 0 (by decide),
    (claim_C4 envPartFail 2 ['d'] rfl).2.2.2 0 0 (by decide) (by decide)⟩

/-- C10: whenever the scratch allocation succeeds, the value returned by
`addb_smap_remove` is determined entirely by the largefile-removal result
and the `rmdir` result: two runs agreeing on those two outcomes return the
same code whatever the individual partition unlinks did and whatever the
static maximum is. -/
theorem claim_C10 (env₁ env₂ : RemoveEnv) (pmax₁ pmax₂ : Nat) (path : List Char)
    (h₁ : env₁.allocOk = true) (h₂ : env₂.allocOk = true)
    (hlf : env₁.largefileErr path = env₂.largefileErr path)
    (hr : env₁.rmdirErr path = env₂.rmdirErr path) :
    (addb_smap_remove env₁ pmax₁ path).1 = (addb_smap_remove env₂ pmax₂ path).1 := by
  rw [addb_smap_remove_err env₁ pmax₁ path h₁,
    addb_smap_remove_err env₂ pmax₂ path h₂, hlf, hr]

/-- C10, witness: a run in which every unlink fails with error 13 returns
the same code as a run in which every call succeeds, under a different
static maximum. -/
theorem claim_C10_witness :
    (addb_smap_remove envPartFail 2 ['d']).1 =
      (addb_smap_remove envNoFail 5 ['d']).1 :=
  claim_C10 envPartFail envNoFail 2 5 ['d'] rfl rfl rfl rfl

/-- C5: in every execution of `addb_smap_truncate` on a non-null smap, the
trace splits at the close: everything before it is a backup-disable call or
a log record (in particular no filesystem deletion precedes the close), and
no backup-disable call follows it — the deletions of `addb_smap_remove` all
come after the close. -/
theorem claim_C5 (env : TruncateEnv) (pmax : Nat) (sm : Smap)
    (path : List Char) :
    ∃ pre post,
      (addb_smap_truncate env pmax (some sm) path).2 =
        pre ++ Event.close :: post ∧
      (∀ e ∈ pre, e.isDisable = true ∨ e = Event.log) ∧
      (∀ e ∈ pre, e.isDeletion = false) ∧
      (∀ e ∈ post, e.isDisable = false) := by
  refine ⟨(sm.sm_partition.dropLast.enum).flatMap (backupStep env),
    logIf env.closeErr ++ (addb_smap_remove env.removeEnv pmax path).2 ++
      logIf (addb_smap_remove env.removeEnv pmax path).1,
    addb_smap_truncate_trace env pmax sm path, ?_, ?_, ?_⟩
  · intro e he
    rcases List.mem_flatMap.mp he with ⟨ip, _, hstep⟩
    exact backupStep_events env ip e hstep
  · intro e he
    rcases List.mem_flatMap.mp he with ⟨ip, _, hstep⟩
    rcases backupStep_events env ip e hstep with hd | rfl
    · cases e <;> simp_all [Event.isDisable, Event.isDeletion]
    · rfl
  · intro e he
    rcases List.mem_append.mp he with he | he
    · rcases List.mem_append.mp he with he | he
      · rcases mem_logIf.mp he with ⟨_, rfl⟩
        rfl
      · cases e <;> try rfl
        exact absurd he (addb_smap_remove_not_disable env.removeEnv pmax path _)
    · rcases mem_logIf.mp he with ⟨_, rfl⟩
      rfl

/-- C6: `addb_smap_truncate` on a non-null smap with partition count `N`
issues a backup-disable for exactly the indices `i` with `i + 1 < N` whose
slot carries a tiled descriptor: the last live slot is always excluded,
slots without a descriptor are skipped, and (the equivalence holding for
every oracle) a backup-disable failure does not prevent any later index
from being visited. -/
theorem claim_C6 (env : TruncateEnv) (pmax : Nat) (sm : Smap)
    (path : List Char) (i : Nat) :
    Event.disableBackup i ∈ (addb_smap_truncate env pmax (some sm) path).2 ↔
      i + 1 < sm.sm_partition.length ∧
        ∃ p, sm.sm_partition[i]? = some p ∧ p.part_td = true := by
  rw [addb_smap_truncate_trace]
  constructor
  · intro hmem
    rcases List.mem_append.mp hmem with hpre | hpost
    · rcases List.mem_flatMap.mp hpre with ⟨ip, hip, hstep⟩
      obtain ⟨j, p⟩ := ip
      rcases (disableBackup_mem_backupStep env (j, p) i).mp hstep with ⟨hij, htd⟩
      subst hij
      have hget : sm.sm_partition.dropLast[i]? = some p :=
        List.mk_mem_enum_iff_getElem?.mp hip
      rw [List.dropLast_eq_take, List.getElem?_take] at hget
      by_cases hlt : i < sm.sm_partition.length - 1
      · rw [if_pos hlt] at hget
        exact ⟨by omega, p, hget, htd⟩
      · rw [if_neg hlt] at hget
        exact absurd hget (by simp)
    · exfalso
      rcases List.mem_cons.mp hpost with hc | hc
      · exact absurd hc (by simp)
      rcases List.mem_append.mp hc with hc | hc
      · rcases List.mem_append.mp hc with hc | hc
        · rcases mem_logIf.mp hc with ⟨_, hc⟩
          exact absurd hc (by simp)
        · exact absurd hc (addb_smap_remove_not_disable env.removeEnv pmax path i)
      · rcases mem_logIf.mp hc with ⟨_, hc⟩
        exact absurd hc (by simp)
  · rintro ⟨hlen, p, hp, htd⟩
    apply List.mem_append.mpr
    left
    apply List.mem_flatMap.mpr
    refine ⟨(i, p), ?_, (disableBackup_mem_backupStep env (i, p) i).mpr ⟨rfl, htd⟩⟩
    apply List.mk_mem_enum_iff_getElem?.mpr
    rw [List.dropLast_eq_take, List.getElem?_take,
      if_pos (by omega : i < sm.sm_partition.length - 1)]
    exact hp

/-- C7: `addb_smap_truncate` on a non-null smap returns 0 when the
backup-disable pass, the close and the removal all report success, and
otherwise the first nonzero code among them, in that order — a later step's
error never displaces an earlier one (it is only logged). -/
theorem claim_C7 (env : TruncateEnv) (pmax : Nat) (sm : Smap)
    (path : List Char) :
    (addb_smap_truncate env pmax (some sm) path).1 =
      if (backupPass env sm.sm_partition.dropLast.enum 0).1 ≠ 0 then
        (backupPass env sm.sm_partition.dropLast.enum 0).1
      else if env.closeErr ≠ 0 then env.closeErr
      else (addb_smap_remove env.removeEnv pmax path).1 :=
  addb_smap_truncate_err env pmax sm path

/-- C8: `addb_smap_truncate` on a null smap handle returns success (0) and
performs no operation at all: its trace is empty, so in particular no
backup-disable, close, filesystem, allocation or logging operation
happens. -/
theorem claim_C8 (env : TruncateEnv) (pmax : Nat) (path : List Char) :
    addb_smap_truncate env pmax none path = (0, []) :=
  rfl

/-- C9, counterexample: for the empty directory string, the constructed
partition path is just the basename and contains no path separator at all,
so it does not contain exactly one separator between the directory and the
basename. -/
theorem claim_C9_counterexample :
    partitionPath [] 5 = ['s', 'm', 'a', 'p', '.', '5'] ∧
    List.count '/' (partitionPath [] 5) = 0 := by
  decide

/-- C9, amended: for every nonempty directory string not already ending in
a separator, the partition path built from it and the one built from it
with a trailing separator appended are identical — the directory, exactly
one separator, then the basename (which itself contains no separator) —
and the basename depends only on the index.  For the empty directory
string no separator is inserted. -/
theorem claim_C9 (dir : List Char) (i : Nat) (h1 : dir ≠ [])
    (h2 : dir.getLast? ≠ some '/') :
    partitionPath dir i = dir ++ '/' :: addb_smap_partition_basename i ∧
    partitionPath (dir ++ ['/']) i =
      dir ++ '/' :: addb_smap_partition_basename i ∧
    '/' ∉ addb_smap_partition_basename i := by
  refine ⟨?_, ?_, basename_no_slash i⟩
  · rw [partitionPath, if_pos ⟨h1, h2⟩]
  · have hcond : ¬((dir ++ ['/']) ≠ [] ∧
        (dir ++ ['/']).getLast? ≠ some '/') := by
      rintro ⟨_, hlast⟩
      exact hlast (List.getLast?_concat dir)
    rw [partitionPath, if_neg hcond, List.append_assoc]
    rfl

/-- C9, witness: the amended statement evaluated at directory `db` and
index 5: with and without the trailing separator the same single-separator
path results. -/
theorem claim_C9_witness :
    partitionPath ['d', 'b'] 5 =
      ['d', 'b'] ++ '/' :: addb_smap_partition_basename 5 ∧
    partitionPath (['d', 'b'] ++ ['/']) 5 =
      ['d', 'b'] ++ '/' :: addb_smap_partition_basename 5 :=
  ⟨(claim_C9 ['d', 'b'] 5 (by decide) (by decide)).1,
    (claim_C9 ['d', 'b'] 5 (by decide) (by decide)).2.1⟩
